import Mathlib

/-!
Shallow embedding of the wmediumd medium-arbitration engine
(src/wmediumd/wmediumd.c, config.c, filter.c) and proofs about it.

Conventions used throughout:
* C `int` values that are used as signed quantities (signal levels in dBm,
  durations in microseconds, filter counts) are modelled as `Int`;
  quantities that are nonnegative in every reachable state (lengths,
  rates, times, indices) are modelled as `Nat`.
* C `double` values are modelled as `ℚ`; the operations the claims touch
  (division of an int by 10000.0, comparisons against probabilities) are
  exact in both `double` and `ℚ` at the inputs considered.
* The row-major flat arrays `m[num_stas * src + dst]` are modelled as
  curried functions `Nat → Nat → _`; every access in the source uses the
  `num_stas * row + col` pattern, so the two representations correspond
  entry for entry.
* Function pointers of `struct wmediumd` (`get_link_snr`, `get_error_prob`,
  `get_fading_signal`) and the `drand48` pseudo-random stream are passed in
  as explicit function arguments.
-/

namespace Wmediumd

/-- NOISE_LEVEL from wmediumd.h: the fixed thermal-noise floor, -91 dBm. -/
def NOISE_LEVEL : Int := -91

/-- CCA_THRESHOLD from wmediumd.h: clear-channel-assessment floor, -90 dBm. -/
def CCA_THRESHOLD : Int := -90

/-- SNR_DEFAULT from wmediumd.h: default link SNR, 30 dB. -/
def SNR_DEFAULT : Int := 30

/-- One cell of the interference matrix, struct intf_info of wmediumd.h:
int signal, int duration, double prob_col. -/
structure intf_info where
  signal : Int
  duration : Int
  prob_col : ℚ

/-- set_interference_duration (wmediumd.c lines 181-199). The
`ctx->intf` pointer is modelled as an `Option`; the C int return value
(0 = nothing recorded, 1 = recorded) is kept as an `Int`. When recording,
the loop writes every cell `intf[num_stas * src_idx + i]` for
`i < num_stas`, adding `duration` and overwriting `signal`. -/
def set_interference_duration (num_stas : Nat)
    (intf : Option (Nat → Nat → intf_info)) (src_idx : Nat)
    (duration signal : Int) :
    Option (Nat → Nat → intf_info) × Int :=
  match intf with
  | none => (none, 0)
  | some f =>
    if CCA_THRESHOLD ≤ signal then (some f, 0)
    else
      (some (fun s k =>
        if s = src_idx ∧ k < num_stas then
          { signal := signal
            duration := (f s k).duration + duration
            prob_col := (f s k).prob_col }
        else f s k), 1)

/-- wmediumd_intf_update (wmediumd.c lines 611-629): the 10 ms periodic
tick. For every pair i ≠ j with both indices in range it sets
`prob_col := duration / 10000.0` and zeroes `duration`. -/
def wmediumd_intf_update (num_stas : Nat) (f : Nat → Nat → intf_info) :
    Nat → Nat → intf_info :=
  fun i j =>
    if i < num_stas ∧ j < num_stas ∧ i ≠ j then
      { signal := (f i j).signal
        duration := 0
        prob_col := ((f i j).duration : ℚ) / 10000 }
    else f i j

/-- Outcome of the per-receiver multicast arm of wmediumd_deliver_frame. -/
inductive rx_outcome
  | skip_cca
  | skip_intf
  | drop_err
  | deliver
deriving DecidableEq, Repr

/-- Per-receiver decision of the multicast arm of wmediumd_deliver_frame
(wmediumd.c lines 547-587), for one receiver station distinct from the
sender, on an acked frame. `link_snr` is `ctx->get_link_snr(sender, r)`,
`fading` is `ctx->get_fading_signal()`, `error_prob` is the value returned
by `ctx->get_error_prob` on the interference-adjusted snr, and `rand` is
the `drand48()` draw of the final check; all four are function-pointer or
PRNG results in the source and enter here as arguments. The second
component is the interference state after the step. -/
def deliver_frame_mcast_rx (num_stas : Nat)
    (intf : Option (Nat → Nat → intf_info)) (sender_idx : Nat)
    (frame_duration : Int) (link_snr fading : Int) (error_prob rand : ℚ) :
    rx_outcome × Option (Nat → Nat → intf_info) :=
  let snr := link_snr + fading
  let signal := snr + NOISE_LEVEL
  if signal < CCA_THRESHOLD then (.skip_cca, intf)
  else
    let sid := set_interference_duration num_stas intf sender_idx
      frame_duration signal
    if sid.2 ≠ 0 then (.skip_intf, sid.1)
    else if rand ≤ error_prob then (.drop_err, sid.1)
    else (.deliver, sid.1)

/-- An all-zero interference matrix used as a concrete input. -/
def intf_zero : Nat → Nat → intf_info := fun _ _ => ⟨0, 0, 0⟩

/-- An interference matrix whose every cell carries 20000 µs of
accumulated duration. -/
def intf_20000 : Nat → Nat → intf_info := fun _ _ => ⟨-91, 20000, 0⟩

/-- C6: set_interference_duration returns 0 and leaves the state unchanged
when interference is disabled or the signal is at least CCA_THRESHOLD
(-90 dBm); otherwise it returns 1 and, for every station index k < N, adds
the duration into row src and overwrites the recorded signal. -/
theorem set_interference_duration_spec (n : Nat) (f : Nat → Nat → intf_info)
    (src : Nat) (dur sig : Int) :
    set_interference_duration n none src dur sig = (none, 0) ∧
    (CCA_THRESHOLD ≤ sig →
      set_interference_duration n (some f) src dur sig = (some f, 0)) ∧
    (sig < CCA_THRESHOLD →
      (set_interference_duration n (some f) src dur sig).2 = 1 ∧
      ∃ g, (set_interference_duration n (some f) src dur sig).1 = some g ∧
        ∀ k, k < n →
          (g src k).duration = (f src k).duration + dur ∧
          (g src k).signal = sig) := by
  refine ⟨rfl, ?_, ?_⟩
  · intro h
    simp [set_interference_duration, h]
  · intro h
    have h' : ¬ CCA_THRESHOLD ≤ sig := not_le.mpr h
    refine ⟨by simp [set_interference_duration, h'], ?_⟩
    refine ⟨fun s k =>
      if s = src ∧ k < n then
        { signal := sig
          duration := (f s k).duration + dur
          prob_col := (f s k).prob_col }
      else f s k, by simp [set_interference_duration, h'], ?_⟩
    intro k hk
    simp [hk]

/-- Witness for set_interference_duration_spec at n = 2, with a strong
signal (-50, not recorded) and a weak one (-95, recorded). -/
theorem set_interference_duration_spec_witness :
    set_interference_duration 2 (some intf_zero) 0 100 (-50) =
      (some intf_zero, 0) ∧
    ((set_interference_duration 2 (some intf_zero) 0 100 (-95)).2 = 1 ∧
      ∃ g, (set_interference_duration 2 (some intf_zero) 0 100 (-95)).1 =
          some g ∧
        ∀ k, k < 2 →
          (g 0 k).duration = (intf_zero 0 k).duration + 100 ∧
          (g 0 k).signal = -95) :=
  ⟨(set_interference_duration_spec 2 intf_zero 0 100 (-50)).2.1 (by decide),
   (set_interference_duration_spec 2 intf_zero 0 100 (-95)).2.2 (by decide)⟩

/-- C2 counterexample: after an interference tick over a window that
accumulated 20000 µs of duration into intf[0][1], prob_col is 2, outside
the interval [0, 1], refuting the claimed invariant at a concrete input. -/
theorem wmediumd_intf_update_cex :
    ((wmediumd_intf_update 2 intf_20000) 0 1).prob_col = 2 ∧
    ¬ ((wmediumd_intf_update 2 intf_20000) 0 1).prob_col ≤ 1 := by
  constructor
  · norm_num [wmediumd_intf_update, intf_20000]
  · norm_num [wmediumd_intf_update, intf_20000]

/-- C2 amended: after a tick, for in-range i ≠ j, prob_col equals exactly
duration / 10000 with no clamping; it is nonnegative whenever the
accumulated duration is nonnegative, and lies in [0,1] precisely when the
accumulated duration is at most 10000 µs. -/
theorem wmediumd_intf_update_prob_col (n : Nat) (f : Nat → Nat → intf_info)
    (i j : Nat) (hi : i < n) (hj : j < n) (hij : i ≠ j) :
    ((wmediumd_intf_update n f) i j).prob_col = ((f i j).duration : ℚ) / 10000 ∧
    (0 ≤ (f i j).duration → 0 ≤ ((wmediumd_intf_update n f) i j).prob_col) ∧
    (((wmediumd_intf_update n f) i j).prob_col ≤ 1 ↔
      (f i j).duration ≤ 10000) := by
  have hcond : i < n ∧ j < n ∧ i ≠ j := ⟨hi, hj, hij⟩
  have hupd : (wmediumd_intf_update n f) i j =
      { signal := (f i j).signal
        duration := 0
        prob_col := ((f i j).duration : ℚ) / 10000 } := by
    unfold wmediumd_intf_update
    rw [if_pos hcond]
  refine ⟨by rw [hupd], ?_, ?_⟩
  · intro h
    rw [hupd]
    exact div_nonneg (by exact_mod_cast h) (by norm_num)
  · rw [hupd]
    show ((f i j).duration : ℚ) / 10000 ≤ 1 ↔ _
    rw [div_le_one (by norm_num)]
    constructor
    · intro h
      exact_mod_cast h
    · intro h
      exact_mod_cast h

/-- Witness for wmediumd_intf_update_prob_col at n = 2, i = 0, j = 1. -/
theorem wmediumd_intf_update_prob_col_witness :
    ((wmediumd_intf_update 2 intf_zero) 0 1).prob_col =
      ((intf_zero 0 1).duration : ℚ) / 10000 ∧
    0 ≤ ((wmediumd_intf_update 2 intf_zero) 0 1).prob_col ∧
    (((wmediumd_intf_update 2 intf_zero) 0 1).prob_col ≤ 1 ↔
      (intf_zero 0 1).duration ≤ 10000) :=
  ⟨(wmediumd_intf_update_prob_col 2 intf_zero 0 1 (by decide) (by decide)
      (by decide)).1,
   (wmediumd_intf_update_prob_col 2 intf_zero 0 1 (by decide) (by decide)
      (by decide)).2.1 (by decide),
   (wmediumd_intf_update_prob_col 2 intf_zero 0 1 (by decide) (by decide)
      (by decide)).2.2⟩

/-- C1 counterexample: a multicast delivery step with the interference
matrix enabled in which the receiver is delivered the frame (outcome
`deliver`, not `skip_intf`), at link snr 30, no fading, error probability
0 and draw 1/2: the per-receiver signal 30 + (-91) = -61 passes the CCA
check, so set_interference_duration sees a signal at least CCA_THRESHOLD,
records nothing, returns 0, and the skip is not taken. -/
theorem deliver_frame_mcast_rx_cex :
    (deliver_frame_mcast_rx 2 (some intf_zero) 0 100 30 0 0 (1/2)).1 =
      rx_outcome.deliver ∧
    (deliver_frame_mcast_rx 2 (some intf_zero) 0 100 30 0 0 (1/2)).1 ≠
      rx_outcome.skip_intf ∧
    (deliver_frame_mcast_rx 2 (some intf_zero) 0 100 30 0 0 (1/2)).2 =
      some intf_zero := by
  have h1 : (deliver_frame_mcast_rx 2 (some intf_zero) 0 100 30 0 0 (1/2)).1 =
      rx_outcome.deliver := by
    norm_num [deliver_frame_mcast_rx, set_interference_duration,
      NOISE_LEVEL, CCA_THRESHOLD]
  refine ⟨h1, by rw [h1]; decide, ?_⟩
  norm_num [deliver_frame_mcast_rx, set_interference_duration,
    NOISE_LEVEL, CCA_THRESHOLD]

/-- C1 amended: in the multicast arm, any receiver that passes the CCA
check reaches set_interference_duration with a signal that is at least
CCA_THRESHOLD, so nothing is ever recorded there, the function returns 0,
the interference state is unchanged, and the receiver is never skipped at
the interference step: the outcome is skip_cca, drop_err or deliver,
never skip_intf. -/
theorem deliver_frame_mcast_rx_no_intf_skip (n : Nat)
    (intf : Option (Nat → Nat → intf_info)) (sender_idx : Nat)
    (frame_duration : Int) (link_snr fading : Int) (error_prob rand : ℚ) :
    (deliver_frame_mcast_rx n intf sender_idx frame_duration link_snr
      fading error_prob rand).1 ≠ rx_outcome.skip_intf ∧
    (deliver_frame_mcast_rx n intf sender_idx frame_duration link_snr
      fading error_prob rand).2 = intf := by
  unfold deliver_frame_mcast_rx
  by_cases hcca : link_snr + fading + NOISE_LEVEL < CCA_THRESHOLD
  · simp [hcca]
  · have hge : CCA_THRESHOLD ≤ link_snr + fading + NOISE_LEVEL :=
      not_lt.mp hcca
    have hsid : set_interference_duration n intf sender_idx frame_duration
        (link_snr + fading + NOISE_LEVEL) = (intf, 0) := by
      cases intf with
      | none => rfl
      | some f => simp [set_interference_duration, hge]
    simp only [hsid, hcca, if_false]
    by_cases hr : rand ≤ error_prob <;> simp [hr]

/-- Witness for deliver_frame_mcast_rx_no_intf_skip at a concrete input
with interference enabled. -/
theorem deliver_frame_mcast_rx_no_intf_skip_witness :
    (deliver_frame_mcast_rx 2 (some intf_zero) 0 100 30 0 0 (3/4)).1 ≠
      rx_outcome.skip_intf ∧
    (deliver_frame_mcast_rx 2 (some intf_zero) 0 100 30 0 0 (3/4)).2 =
      some intf_zero :=
  deliver_frame_mcast_rx_no_intf_skip 2 (some intf_zero) 0 100 30 0 0 (3/4)

/-- div_round (wmediumd.c lines 59-62): (a + b - 1) / b. Both arguments
are positive ints at every call site (packet bit-times and rates), so the
C truncating division coincides with Nat division. -/
def div_round (a b : Nat) : Nat := (a + b - 1) / b

/-- pkt_duration (wmediumd.c lines 64-68): preamble + signal + symbol
time, rate given in units of 100 kbps. -/
def pkt_duration (len rate : Nat) : Nat :=
  16 + 4 + 4 * div_round ((16 + 8 * len + 6) * 10) (4 * rate)

/-- div_round computes the exact integer ceiling of a / b for positive
arguments. -/
theorem div_round_eq_ceil (a b : Nat) (ha : 0 < a) (hb : 0 < b) :
    div_round a b = ⌈(a : ℚ) / (b : ℚ)⌉₊ := by
  have hbq : (0 : ℚ) < (b : ℚ) := by exact_mod_cast hb
  have hq : div_round a b = (a - 1) / b + 1 := by
    unfold div_round
    have : a + b - 1 = (a - 1) + b := by omega
    rw [this, Nat.add_div_right _ hb]
  rw [hq]
  symm
  rw [Nat.ceil_eq_iff (Nat.succ_ne_zero _)]
  have hdm := Nat.div_add_mod (a - 1) b
  have hmlt : (a - 1) % b < b := Nat.mod_lt _ hb
  constructor
  · have hlt : ((a - 1) / b) * b < a := by
      have := Nat.div_mul_le_self (a - 1) b
      omega
    have : (((a - 1) / b : Nat) : ℚ) * (b : ℚ) < (a : ℚ) := by
      exact_mod_cast hlt
    calc ((((a - 1) / b + 1 : Nat) - 1 : Nat) : ℚ)
        = (((a - 1) / b : Nat) : ℚ) := by norm_num
      _ < (a : ℚ) / (b : ℚ) := by
          rw [lt_div_iff₀ hbq]
          exact this
  · have hle : a ≤ ((a - 1) / b + 1) * b := by
      have : ((a - 1) / b + 1) * b = b * ((a - 1) / b) + b := by ring
      omega
    rw [div_le_iff₀ hbq]
    exact_mod_cast hle

/-- C7: pkt_duration(len, rate) is exactly
16 + 4 + 4 * ceil(((16 + 8 len + 6) * 10) / (4 rate)) with a true integer
ceiling, for every len and every positive rate. -/
theorem pkt_duration_spec (len rate : Nat) (h : 0 < rate) :
    pkt_duration len rate =
      16 + 4 + 4 * ⌈(((16 + 8 * len + 6) * 10 : Nat) : ℚ) /
        (((4 * rate : Nat) : ℚ))⌉₊ := by
  unfold pkt_duration
  rw [div_round_eq_ceil _ _ (by omega) (by omega)]

/-- Witness for pkt_duration_spec at the S1 scenario values
len = 100, rate = 60 (6 Mbps). -/
theorem pkt_duration_spec_witness :
    pkt_duration 100 60 =
      16 + 4 + 4 * ⌈(((16 + 8 * 100 + 6) * 10 : Nat) : ℚ) /
        (((4 * 60 : Nat) : ℚ))⌉₊ :=
  pkt_duration_spec 100 60 (by decide)

/-- Tail step of the queue scan of queue_frame (wmediumd.c lines 361-368):
list_last_entry_or_null followed by the max fold. A queue is modelled as
the list of the absolute start times of its frames in queue order. -/
def tail_or_acc (acc : Nat) (q : List Nat) : Nat :=
  match q.getLast? with
  | some t => max acc t
  | none => acc

/-- Scan of one station's queues 0..ac (the inner loop body over
tmpsta->queues[i] for i ≤ ac). -/
def station_tails_max (acc : Nat) (queues : List (List Nat)) (ac : Nat) :
    Nat :=
  (queues.take (ac + 1)).foldl tail_or_acc acc

/-- Target computation of queue_frame (lines 360-368): start from the
scheduler's current time and take the max over every station of the tails
of its queues with access-category index at most ac. -/
def medium_target (now : Nat) (stations : List (List (List Nat)))
    (ac : Nat) : Nat :=
  stations.foldl (fun acc qs => station_tails_max acc qs ac) now

/-- Scheduling step of queue_frame (lines 360-379): the frame's job start
is the medium target plus send_time, and the frame is appended to the
tail of the submitting station's queue for its access category. -/
def queue_frame_sched (now : Nat) (stations : List (List (List Nat)))
    (sta ac send_time : Nat) : Nat × List (List (List Nat)) :=
  let target := medium_target now stations ac + send_time
  (target,
    stations.set sta
      ((stations.getD sta []).set ac
        (((stations.getD sta []).getD ac []) ++ [target])))

theorem le_tail_or_acc (acc : Nat) (q : List Nat) : acc ≤ tail_or_acc acc q := by
  unfold tail_or_acc
  cases q.getLast? with
  | none => exact le_rfl
  | some t => exact le_max_left _ _

theorem le_foldl_tail (l : List (List Nat)) (acc : Nat) :
    acc ≤ l.foldl tail_or_acc acc := by
  induction l generalizing acc with
  | nil => exact le_rfl
  | cons q rest ih =>
    exact le_trans (le_tail_or_acc acc q) (ih (tail_or_acc acc q))

theorem tail_le_foldl (l : List (List Nat)) :
    ∀ (acc : Nat) (q : List Nat), q ∈ l → ∀ t, q.getLast? = some t →
      t ≤ l.foldl tail_or_acc acc := by
  induction l with
  | nil =>
    intro acc q hq
    cases hq
  | cons q0 rest ih =>
    intro acc q hq t ht
    rcases List.mem_cons.mp hq with h | h
    · subst h
      have h1 : t ≤ tail_or_acc acc q := by
        unfold tail_or_acc
        rw [ht]
        exact le_max_right _ _
      exact le_trans h1 (le_foldl_tail rest _)
    · exact ih _ q h t ht

theorem le_station_tails_max (acc : Nat) (queues : List (List Nat))
    (ac : Nat) : acc ≤ station_tails_max acc queues ac :=
  le_foldl_tail _ acc

theorem tail_le_station_tails_max (acc : Nat) (queues : List (List Nat))
    (ac : Nat) (i : Nat) (hi : i ≤ ac) (hlen : i < queues.length)
    (t : Nat) (ht : (queues.getD i []).getLast? = some t) :
    t ≤ station_tails_max acc queues ac := by
  unfold station_tails_max
  have hlen2 : i < (queues.take (ac + 1)).length := by
    rw [List.length_take]
    omega
  have hmem : queues.getD i [] ∈ queues.take (ac + 1) := by
    rw [List.getD_eq_getElem _ _ hlen]
    have heq : (queues.take (ac + 1))[i] = queues[i] :=
      List.getElem_take queues
    rw [← heq]
    exact List.getElem_mem hlen2
  exact tail_le_foldl _ acc _ hmem t ht

theorem le_foldl_stations (l : List (List (List Nat))) (acc ac : Nat) :
    acc ≤ l.foldl (fun a qs => station_tails_max a qs ac) acc := by
  induction l generalizing acc with
  | nil => exact le_rfl
  | cons qs rest ih =>
    exact le_trans (le_station_tails_max acc qs ac) (ih _)

theorem member_tail_le_medium (ac i : Nat) (hi : i ≤ ac) (t : Nat)
    (stations : List (List (List Nat))) :
    ∀ (now : Nat) (qs : List (List Nat)), qs ∈ stations →
      i < qs.length → (qs.getD i []).getLast? = some t →
      t ≤ medium_target now stations ac := by
  induction stations with
  | nil =>
    intro now qs hmem
    cases hmem
  | cons q0 rest ih =>
    intro now qs hmem hlen ht
    unfold medium_target
    rw [List.foldl_cons]
    rcases List.mem_cons.mp hmem with h | h
    · subst h
      have h1 : t ≤ station_tails_max now qs ac :=
        tail_le_station_tails_max now qs ac i hi hlen t ht
      exact le_trans h1 (le_foldl_stations rest _ ac)
    · exact ih _ qs h hlen ht

/-- C4 counterexample: one station with empty queues submits two
back-to-back frames into AC 1, the first with send_time 100, the second
with send_time 10, at now = 0. The starts are 100 and 110: the gap is
10 = send_time2, which is smaller than send_time1 = 100, refuting the
claim as stated. -/
theorem queue_frame_sched_cex :
    (queue_frame_sched 0
        (queue_frame_sched 0 [[[], [], [], []]] 0 1 100).2 0 1 10).1 -
      (queue_frame_sched 0 [[[], [], [], []]] 0 1 100).1 = 10 ∧
    ¬ (100 ≤
      (queue_frame_sched 0
          (queue_frame_sched 0 [[[], [], [], []]] 0 1 100).2 0 1 10).1 -
        (queue_frame_sched 0 [[[], [], [], []]] 0 1 100).1) := by
  decide

/-- Appending a frame with start v to a station's AC queue makes the
subsequent medium-target scan for the same AC return at least v. -/
theorem mem_set_self {α : Type} (l : List α) (i : Nat) (x : α)
    (h : i < l.length) : x ∈ l.set i x := by
  have h2 : i < (l.set i x).length := by
    rw [List.length_set]
    exact h
  have heq := List.getElem_set_self h2
  have hm := List.getElem_mem h2
  rw [heq] at hm
  exact hm

theorem target_le_after_append (now : Nat)
    (stations : List (List (List Nat))) (sta ac : Nat)
    (hsta : sta < stations.length)
    (hac : ac < (stations.getD sta []).length) (v : Nat) :
    v ≤ medium_target now
      (stations.set sta ((stations.getD sta []).set ac
        (((stations.getD sta []).getD ac []) ++ [v]))) ac := by
  have hlenq : ac < ((stations.getD sta []).set ac
      (((stations.getD sta []).getD ac []) ++ [v])).length := by
    rw [List.length_set]
    exact hac
  have hlenS : sta < (stations.set sta ((stations.getD sta []).set ac
      (((stations.getD sta []).getD ac []) ++ [v]))).length := by
    rw [List.length_set]
    exact hsta
  refine member_tail_le_medium ac ac le_rfl v _ now
    ((stations.getD sta []).set ac
      (((stations.getD sta []).getD ac []) ++ [v])) ?_ hlenq ?_
  · exact mem_set_self stations sta _ hsta
  · have heq : ((stations.getD sta []).set ac
        (((stations.getD sta []).getD ac []) ++ [v])).getD ac [] =
        ((stations.getD sta []).getD ac []) ++ [v] := by
      rw [List.getD_eq_getElem _ _ hlenq]
      exact List.getElem_set_self hlenq
    rw [heq]
    exact List.getLast?_concat _

/-- C4 amended: for two frames submitted back-to-back (same now, no
intervening events) from the same station into the same access category,
start2 - start1 is at least send_time2 (the second frame's own airtime):
the first frame is the tail of a queue the second frame's target scan
covers, so target2 is at least start1, and start2 = target2 + send_time2. -/
theorem queue_frame_back_to_back (now : Nat)
    (stations : List (List (List Nat))) (sta ac st1 st2 : Nat)
    (hsta : sta < stations.length)
    (hac : ac < (stations.getD sta []).length) :
    (queue_frame_sched now stations sta ac st1).1 + st2 ≤
      (queue_frame_sched now
        (queue_frame_sched now stations sta ac st1).2 sta ac st2).1 := by
  have hkey := target_le_after_append now stations sta ac hsta hac
    (medium_target now stations ac + st1)
  show medium_target now stations ac + st1 + st2 ≤
    medium_target now
      (stations.set sta ((stations.getD sta []).set ac
        (((stations.getD sta []).getD ac []) ++
          [medium_target now stations ac + st1]))) ac + st2
  omega

/-- Witness for queue_frame_back_to_back at the counterexample's input. -/
theorem queue_frame_back_to_back_witness :
    (queue_frame_sched 0 [[[], [], [], []]] 0 1 100).1 + 10 ≤
      (queue_frame_sched 0
        (queue_frame_sched 0 [[[], [], [], []]] 0 1 100).2 0 1 10).1 :=
  queue_frame_back_to_back 0 [[[], [], [], []]] 0 1 100 10 (by decide)
    (by decide)

/-- One row of the multi-rate-retry table, struct hwsim_tx_rate of
wmediumd.h: signed char idx (Int), unsigned char count (Nat). -/
structure hwsim_tx_rate where
  idx : Int
  count : Nat
deriving DecidableEq, Repr

/-- Registered station as seen by the ingress path: index, interface MAC,
hardware MAC, and the bound client (struct station of wmediumd.h; the
client pointer is modelled as an Option over an opaque client id). -/
structure station_m where
  index : Nat
  addr : List Nat
  hwaddr : List Nat
  client : Option Nat
deriving DecidableEq, Repr

/-- get_station_by_addr (wmediumd.c lines 230-239): first station in the
registry whose interface MAC equals addr. -/
def get_station_by_addr (stations : List station_m) (addr : List Nat) :
    Option station_m :=
  stations.find? (fun s => s.addr == addr)

/-- Frame metadata filled in by the ingress path before queue_frame. -/
structure frame_m where
  data : List Nat
  data_len : Nat
  flags : Nat
  cookie : Nat
  freq : Nat
  sender_index : Nat
  tx_rates : List hwsim_tx_rate
deriving DecidableEq, Repr

/-- HWSIM_CMD_FRAME handling of _process_messages (wmediumd.c lines
662-714) up to the queue_frame call, for a message carrying a transmitter
address. Netlink attribute decoding is external; the decoded payloads
arrive here as arguments. Validation: the frame must be at least
6 + 6 + 4 = 16 bytes and its source MAC must belong to a registered
station, else the frame is dropped and nothing changes. On success the
sender's hardware MAC is rebound, an unbound sender is bound to the
submitting client, and the allocated frame is handed to queue_frame.
The source MAC extraction (bytes 10..16) is Modelled from the spec:
struct ieee80211_hdr (ieee80211.h, a header not in src/) lays out
frame_control (2 bytes), duration_id (2 bytes), addr1 (6 bytes), then
addr2 at offset 10. -/
def _process_messages_frame (stations : List station_m) (client : Nat)
    (hwaddr : List Nat) (data : List Nat) (tx_rates : List hwsim_tx_rate)
    (flags cookie freq : Nat) : List station_m × Option frame_m :=
  if data.length < 6 + 6 + 4 then (stations, none)
  else
    match get_station_by_addr stations ((data.drop 10).take 6) with
    | none => (stations, none)
    | some sender =>
      (stations.map (fun s =>
        if s.index = sender.index then
          { s with
            hwaddr := hwaddr
            client := if s.client = none then some client else s.client }
        else s),
       some { data := data
              data_len := data.length
              flags := flags
              cookie := cookie
              freq := freq
              sender_index := sender.index
              tx_rates := tx_rates })

/-- C8: an inbound FRAME command whose payload is shorter than 16 bytes,
or whose source MAC (bytes 10..16, header addr2) matches no registered
station, is dropped atomically: no frame is produced for queueing and the
station registry (bindings included) is returned unchanged. -/
theorem process_messages_frame_drop (stations : List station_m)
    (client : Nat) (hwaddr data : List Nat) (tx_rates : List hwsim_tx_rate)
    (flags cookie freq : Nat)
    (h : data.length < 16 ∨
      get_station_by_addr stations ((data.drop 10).take 6) = none) :
    _process_messages_frame stations client hwaddr data tx_rates flags
      cookie freq = (stations, none) := by
  unfold _process_messages_frame
  rcases h with h | h
  · rw [if_pos (by omega)]
  · by_cases hlen : data.length < 6 + 6 + 4
    · rw [if_pos hlen]
    · rw [if_neg hlen, h]

/-- Witness for process_messages_frame_drop: a 5-byte frame is dropped
with the registry unchanged. -/
theorem process_messages_frame_drop_witness :
    _process_messages_frame [⟨0, [2, 0, 0, 0, 0, 0], [2, 0, 0, 0, 0, 0],
        none⟩] 7 [1, 1, 1, 1, 1, 1] [0, 0, 0, 0, 0] [] 0 0 2412 =
      ([⟨0, [2, 0, 0, 0, 0, 0], [2, 0, 0, 0, 0, 0], none⟩], none) :=
  process_messages_frame_drop _ 7 _ _ _ 0 0 2412 (Or.inl (by decide))

/-- Link-source selection check of load_config (config.c lines 270-281):
the configuration passes exactly when the pattern of present sources is
one of none, links only, error_probs only, path_loss only; every other
combination takes the failure branch. Each Bool records whether the
corresponding config_lookup found the setting. -/
def link_source_sel_ok (links error_probs path_loss : Bool) : Bool :=
  (!links && !error_probs && !path_loss) ||
  ( links && !error_probs && !path_loss) ||
  (!links &&  error_probs && !path_loss) ||
  (!links && !error_probs &&  path_loss)

/-- Number of link sources present in the configuration. -/
def num_link_sources (links error_probs path_loss : Bool) : Nat :=
  (if links then 1 else 0) + (if error_probs then 1 else 0) +
    (if path_loss then 1 else 0)

/-- Default SNR fill of load_config (config.c lines 293-295): every cell
of the count_ids x count_ids matrix is set to SNR_DEFAULT before any
source is applied; with zero sources nothing overwrites it. -/
def default_snr_matrix_fill (count_ids : Nat) : List Int :=
  (List.range (count_ids * count_ids)).map (fun _ => SNR_DEFAULT)

/-- C9: the selection check of load_config fails precisely when two or
more of links, error_probs, path_loss are present, and succeeds when zero
or one is; with zero sources the SNR matrix keeps the default value 30 in
every cell. -/
theorem load_config_source_selection :
    (∀ l e p : Bool,
      link_source_sel_ok l e p = false ↔ 2 ≤ num_link_sources l e p) ∧
    (∀ n : Nat, default_snr_matrix_fill n = List.replicate (n * n) 30) := by
  constructor
  · decide
  · intro n
    unfold default_snr_matrix_fill
    rw [show (fun _ : Nat => SNR_DEFAULT) = Function.const Nat SNR_DEFAULT
      from rfl, List.map_const, List.length_range]
    rfl

/-- Outcome of filter_matches, enum filter_options of filter.h. -/
inductive filter_options
  | pass
  | drop
deriving DecidableEq, Repr

/-- struct filter of filter.h: source MAC, frame type (0 = NONE,
1 = COMMIT, 2 = CONFIRM, 3 = ACTION, the C enum values) and a signed
count. -/
structure filter_m where
  mac : List Nat
  frame_type : Nat
  count : Int
deriving DecidableEq, Repr

/-- filter_parse (filter.c lines 6-53) over the strtok token list of the
input string (split at every dot). The struct is initialised with
count = -1; field 0 is the MAC (string_to_mac_address, abstracted as
macParse), field 1 must be one of commit, confirm, action, field 2 sets
count via atoi (abstracted), any later token falls through the switch and
is ignored. Fewer than two fields parse to NULL. -/
def filter_parse (macParse : String → List Nat) (atoi : String → Int)
    (tokens : List String) : Option filter_m :=
  match tokens with
  | [] => none
  | [_] => none
  | t0 :: t1 :: rest =>
    match (if t1 = "commit" then some 1
           else if t1 = "confirm" then some 2
           else if t1 = "action" then some 3
           else none : Option Nat) with
    | none => none
    | some ty =>
      some { mac := macParse t0
             frame_type := ty
             count := match rest with
               | [] => -1
               | c :: _ => atoi c }

/-- Frame as seen by filter_matches: the sender's MAC and the three
frame-classification predicates frame_is_sae_commit, frame_is_sae_confirm,
frame_is_action, which live in ieee80211.h (not in src/) and are
abstracted as per-frame booleans. -/
structure filter_frame where
  sender_addr : List Nat
  is_sae_commit : Bool
  is_sae_confirm : Bool
  is_action : Bool
deriving DecidableEq, Repr

/-- filter_matches (filter.c lines 60-92): a rule with count 0 or type
NONE passes everything; a sender-MAC mismatch passes; a type match drops,
decrementing the count only when it is positive. Returns the outcome and
the rule's state afterwards (the C mutates filter->count in place). -/
def filter_matches (f : filter_m) (fr : filter_frame) :
    filter_options × filter_m :=
  if f.count = 0 ∨ f.frame_type = 0 then (.pass, f)
  else if fr.sender_addr ≠ f.mac then (.pass, f)
  else if (f.frame_type = 1 && fr.is_sae_commit) ||
          (f.frame_type = 2 && fr.is_sae_confirm) ||
          (f.frame_type = 3 && fr.is_action) then
    (.drop, if 0 < f.count then { f with count := f.count - 1 } else f)
  else (.pass, f)

/-- The frame matches the rule's configured type. -/
def filter_type_matches (f : filter_m) (fr : filter_frame) : Prop :=
  (f.frame_type = 1 ∧ fr.is_sae_commit = true) ∨
  (f.frame_type = 2 ∧ fr.is_sae_confirm = true) ∨
  (f.frame_type = 3 ∧ fr.is_action = true)

/-- C10: a two-field filter string parses to a rule with count = -1;
filter_matches never decrements a count that is not positive and passes
everything once count = 0; hence a count = -1 rule drops every matching
frame while staying unchanged (so it drops forever), and a rule whose
count reached 0 passes all frames. -/
theorem filter_semantics (macParse : String → List Nat)
    (atoi : String → Int) (t0 t1 : String) (f : filter_m)
    (fr : filter_frame) :
    ((t1 = "commit" ∨ t1 = "confirm" ∨ t1 = "action") →
      ∃ fl, filter_parse macParse atoi [t0, t1] = some fl ∧
        fl.count = -1 ∧ fl.mac = macParse t0) ∧
    (f.count ≤ 0 → ((filter_matches f fr).2).count = f.count) ∧
    (f.count = 0 → (filter_matches f fr).1 = .pass) ∧
    (f.count = -1 → f.mac = fr.sender_addr → filter_type_matches f fr →
      filter_matches f fr = (.drop, f)) := by
  refine ⟨?_, ?_, ?_, ?_⟩
  · rintro (h | h | h) <;> subst h <;>
      exact ⟨_, rfl, rfl, rfl⟩
  · intro h
    unfold filter_matches
    by_cases h1 : f.count = 0 ∨ f.frame_type = 0
    · rw [if_pos h1]
    · rw [if_neg h1]
      by_cases h2 : fr.sender_addr ≠ f.mac
      · rw [if_pos h2]
      · rw [if_neg h2]
        by_cases h3 : ((f.frame_type = 1 && fr.is_sae_commit) ||
            (f.frame_type = 2 && fr.is_sae_confirm) ||
            (f.frame_type = 3 && fr.is_action)) = true
        · rw [if_pos h3, if_neg (by omega)]
        · rw [if_neg h3]
  · intro h
    unfold filter_matches
    rw [if_pos (Or.inl h)]
  · intro hcnt haddr htype
    unfold filter_matches
    have h1 : ¬ (f.count = 0 ∨ f.frame_type = 0) := by
      rintro (hc | hty)
      · omega
      · rcases htype with ⟨ht, _⟩ | ⟨ht, _⟩ | ⟨ht, _⟩ <;> omega
    rw [if_neg h1]
    have h2 : ¬ fr.sender_addr ≠ f.mac := fun hne => hne haddr.symm
    rw [if_neg h2]
    have h3 : ((f.frame_type = 1 && fr.is_sae_commit) ||
        (f.frame_type = 2 && fr.is_sae_confirm) ||
        (f.frame_type = 3 && fr.is_action)) = true := by
      rcases htype with ⟨ht, hb⟩ | ⟨ht, hb⟩ | ⟨ht, hb⟩ <;> simp [ht, hb]
    rw [if_pos h3, if_neg (by omega : ¬ ((0 : Int) < f.count))]

/-- A concrete commit-dropping rule with count -1. -/
def filter_forever : filter_m := ⟨[2, 0, 0, 0, 0, 0], 1, -1⟩

/-- A concrete exhausted rule with count 0. -/
def filter_spent : filter_m := ⟨[2, 0, 0, 0, 0, 0], 1, 0⟩

/-- A concrete SAE-commit frame from the filtered sender. -/
def frame_commit : filter_frame := ⟨[2, 0, 0, 0, 0, 0], true, false, false⟩

/-- Witness for filter_semantics: each conjunct instantiated at concrete
rules and frames, hypotheses discharged. -/
theorem filter_semantics_witness :
    (∃ fl, filter_parse (fun _ => [2, 0, 0, 0, 0, 0]) (fun _ => 0)
        ["02:00:00:00:00:00", "commit"] = some fl ∧
      fl.count = -1 ∧
      fl.mac = (fun _ => [2, 0, 0, 0, 0, 0]) "02:00:00:00:00:00") ∧
    ((filter_matches filter_forever frame_commit).2).count =
      filter_forever.count ∧
    (filter_matches filter_spent frame_commit).1 = .pass ∧
    filter_matches filter_forever frame_commit = (.drop, filter_forever) :=
  ⟨(filter_semantics (fun _ => [2, 0, 0, 0, 0, 0]) (fun _ => 0)
      "02:00:00:00:00:00" "commit" filter_forever frame_commit).1
      (Or.inl rfl),
   (filter_semantics (fun _ => [2, 0, 0, 0, 0, 0]) (fun _ => 0)
      "02:00:00:00:00:00" "commit" filter_forever frame_commit).2.1
      (by decide),
   (filter_semantics (fun _ => [2, 0, 0, 0, 0, 0]) (fun _ => 0)
      "02:00:00:00:00:00" "commit" filter_spent frame_commit).2.2.1 rfl,
   (filter_semantics (fun _ => [2, 0, 0, 0, 0, 0]) (fun _ => 0)
      "02:00:00:00:00:00" "commit" filter_forever frame_commit).2.2.2 rfl
      rfl (Or.inl ⟨rfl, rfl⟩)⟩

/-- is_multicast_ether_addr (wmediumd.c lines 225-228): the low bit of
the first address byte. -/
def is_multicast_ether_addr (addr : List Nat) : Bool :=
  (addr.headD 0) % 2 = 1

/-- use_fixed_random_value (config.c lines 77-80): nonzero iff
ctx->error_prob_matrix is non-null. The matrix itself is abstracted to
its presence and cell values. -/
def use_fixed_random_value (error_prob_matrix : Option (Nat → Nat → ℚ)) :
    Bool :=
  error_prob_matrix.isSome

/-- noack computation of queue_frame (wmediumd.c line 298): management
frame or multicast destination. -/
def queue_frame_noack (frame_mgmt : Bool) (dest : List Nat) : Bool :=
  frame_mgmt || is_multicast_ether_addr dest

/-- State of the MRR walk loops of queue_frame at exit: the locals
send_time, cw, retries, choice, the next position of the drand48 stream,
is_acked, and the inner index j at exit. -/
structure mrr_result where
  send_time : Nat
  cw : Nat
  retries : Nat
  choice : ℚ
  rng_pos : Nat
  is_acked : Bool
  j_exit : Nat
deriving DecidableEq, Repr

/-- Inner attempt loop of queue_frame (wmediumd.c lines 313-344) for one
MRR row, recursing on the remaining attempt count; j is the number of
attempts already made in this row, so the C loop test j < count holds iff
remaining > 0. dur_step is difs + pkt_duration(data_len, rate) at this
row's rate; error_prob is ctx->get_error_prob for this row; u is the
drand48 stream, p the next draw position; fixed is
use_fixed_random_value(ctx), which suppresses the per-attempt resample. -/
def mrr_attempts (noack fixed : Bool) (slot cw_max ack_time dur_step : Nat)
    (error_prob : ℚ) (u : Nat → ℚ) :
    Nat → Nat → Nat → Nat → Nat → ℚ → Nat → mrr_result
  | 0, j, send_time, cw, retries, choice, p =>
      ⟨send_time, cw, retries, choice, p, false, j⟩
  | remaining + 1, j, send_time, cw, retries, choice, p =>
      let st1 := send_time + dur_step
      let r1 := retries + 1
      if noack then ⟨st1, cw, r1, choice, p, true, j⟩
      else
        let st2 := if 0 < j then st1 + (cw * slot) / 2 else st1
        let cw2 := if 0 < j then min (2 * cw + 1) cw_max else cw
        let st3 := st2 + ack_time
        if error_prob < choice then ⟨st3, cw2, r1, choice, p, true, j⟩
        else
          mrr_attempts noack fixed slot cw_max ack_time dur_step error_prob
            u remaining (j + 1) st3 cw2 r1
            (if fixed then choice else u p) (if fixed then p else p + 1)

/-- Outer MRR row loop of queue_frame (wmediumd.c lines 302-345). The
second component of the result is the value of the C index i when the
loop exits: unchanged on the idx < 0 break or on list exhaustion,
incremented once past the acking row when the walk succeeds. -/
def mrr_rows (noack fixed : Bool) (slot cw_max ack_time difs : Nat)
    (pktdur : Int → Nat) (error_prob_of : Int → ℚ) (u : Nat → ℚ) :
    List hwsim_tx_rate → Nat → Nat → Nat → Nat → ℚ → Nat →
      mrr_result × Nat
  | [], i, send_time, cw, retries, choice, p =>
      (⟨send_time, cw, retries, choice, p, false, 0⟩, i)
  | r :: rest, i, send_time, cw, retries, choice, p =>
      if r.idx < 0 then
        (⟨send_time, cw, retries, choice, p, false, 0⟩, i)
      else
        let res := mrr_attempts noack fixed slot cw_max ack_time
          (difs + pktdur r.idx) (error_prob_of r.idx) u
          r.count 0 send_time cw retries choice p
        if res.is_acked then (res, i + 1)
        else
          mrr_rows noack fixed slot cw_max ack_time difs pktdur
            error_prob_of u rest (i + 1) res.send_time res.cw res.retries
            res.choice res.rng_pos

/-- Acked post-processing of the MRR table (wmediumd.c lines 347-353):
the row the walk acked on (reached when i_left counts down to 1) gets
count j+1; every later row is overwritten with idx -1 and count -1,
which the unsigned char count stores as 255. -/
def truncate_tx_rates :
    List hwsim_tx_rate → Nat → Nat → List hwsim_tx_rate
  | [], _, _ => []
  | r :: rest, i_left, j =>
    if i_left = 1 then ⟨r.idx, j + 1⟩ :: truncate_tx_rates rest 0 j
    else if i_left = 0 then ⟨-1, 255⟩ :: truncate_tx_rates rest 0 j
    else r :: truncate_tx_rates rest (i_left - 1) j

/-- Observable result of the MRR portion of queue_frame: the frame's MRR
table after post-processing, the ACK flag, and the loop counters. -/
structure queue_frame_result where
  tx_rates : List hwsim_tx_rate
  acked : Bool
  retries : Nat
  send_time : Nat
  rng_end : Nat
deriving DecidableEq, Repr

/-- Airtime/MRR portion of queue_frame (wmediumd.c lines 264-354): draw
choice once before the walk (line 300, consuming stream position p0),
walk the rows from i = 0 with send_time 0, cw = cw_min and retries 0,
then, when acked, truncate the MRR table (the HWSIM_TX_STAT_ACK flag is
modelled by the acked field). -/
def queue_frame_mrr (error_prob_matrix : Option (Nat → Nat → ℚ))
    (noack : Bool) (slot cw_min cw_max ack_time difs : Nat)
    (pktdur : Int → Nat) (error_prob_of : Int → ℚ) (u : Nat → ℚ)
    (tx : List hwsim_tx_rate) (p0 : Nat) : queue_frame_result :=
  let fixed := use_fixed_random_value error_prob_matrix
  let out := mrr_rows noack fixed slot cw_max ack_time difs pktdur
    error_prob_of u tx 0 0 cw_min 0 (u p0) (p0 + 1)
  { tx_rates :=
      if out.1.is_acked then truncate_tx_rates tx out.2 out.1.j_exit
      else tx
    acked := out.1.is_acked
    retries := out.1.retries
    send_time := out.1.send_time
    rng_end := out.1.rng_pos }

theorem truncate_tx_rates_zero (l : List hwsim_tx_rate) (j : Nat) :
    truncate_tx_rates l 0 j = l.map (fun _ => ⟨-1, 255⟩) := by
  induction l with
  | nil => rfl
  | cons r rest ih => simp [truncate_tx_rates, ih]

/-- C3 counterexample: a no-ack frame submitted with MRR table
[(0,4),(1,2)] leaves queue_frame with its table truncated to
[(0,1),(-1,255)]: row 0's count is rewritten from 4 to 1 and row 1 is
overwritten, so the table is not left as submitted (the attempt count is
1 as claimed). -/
theorem queue_frame_mrr_noack_cex :
    (queue_frame_mrr none true 9 15 1023 44 34 (fun _ => 100)
        (fun _ => 0) (fun _ => 0) [⟨0, 4⟩, ⟨1, 2⟩] 0).tx_rates =
      [⟨0, 1⟩, ⟨-1, 255⟩] ∧
    (queue_frame_mrr none true 9 15 1023 44 34 (fun _ => 100)
        (fun _ => 0) (fun _ => 0) [⟨0, 4⟩, ⟨1, 2⟩] 0).tx_rates ≠
      [⟨0, 4⟩, ⟨1, 2⟩] ∧
    (queue_frame_mrr none true 9 15 1023 44 34 (fun _ => 100)
        (fun _ => 0) (fun _ => 0) [⟨0, 4⟩, ⟨1, 2⟩] 0).retries = 1 := by
  decide

/-- C3 amended: a no-ack frame (management or multicast destination)
whose first MRR row is valid (idx at least 0, count at least 1) is acked
on its very first attempt: exactly one attempt is counted (retries = 1),
and the ACK path truncates the MRR table to first-row idx with count 1
followed by (-1, 255) rows; the table is not left as submitted unless it
already had that shape. -/
theorem queue_frame_mrr_noack_spec (m : Option (Nat → Nat → ℚ))
    (slot cw_min cw_max ack_time difs : Nat) (pktdur : Int → Nat)
    (error_prob_of : Int → ℚ) (u : Nat → ℚ) (idx0 : Int) (cnt0 : Nat)
    (rest : List hwsim_tx_rate) (p0 : Nat) (hidx : 0 ≤ idx0)
    (hcnt : 1 ≤ cnt0) :
    (queue_frame_mrr m true slot cw_min cw_max ack_time difs pktdur
        error_prob_of u (⟨idx0, cnt0⟩ :: rest) p0).retries = 1 ∧
    (queue_frame_mrr m true slot cw_min cw_max ack_time difs pktdur
        error_prob_of u (⟨idx0, cnt0⟩ :: rest) p0).acked = true ∧
    (queue_frame_mrr m true slot cw_min cw_max ack_time difs pktdur
        error_prob_of u (⟨idx0, cnt0⟩ :: rest) p0).tx_rates =
      ⟨idx0, 1⟩ :: rest.map (fun _ => ⟨-1, 255⟩) := by
  obtain ⟨k, hk⟩ : ∃ k, cnt0 = k + 1 := ⟨cnt0 - 1, by omega⟩
  subst hk
  have hneg : ¬ (idx0 < 0) := by omega
  simp [queue_frame_mrr, mrr_rows, hneg, mrr_attempts,
    truncate_tx_rates, truncate_tx_rates_zero]

/-- Witness for queue_frame_mrr_noack_spec at the counterexample's
input. -/
theorem queue_frame_mrr_noack_spec_witness :
    (queue_frame_mrr none true 9 15 1023 44 34 (fun _ => 100)
        (fun _ => 0) (fun _ => 0) [⟨0, 4⟩, ⟨1, 2⟩] 0).retries = 1 ∧
    (queue_frame_mrr none true 9 15 1023 44 34 (fun _ => 100)
        (fun _ => 0) (fun _ => 0) [⟨0, 4⟩, ⟨1, 2⟩] 0).acked = true ∧
    (queue_frame_mrr none true 9 15 1023 44 34 (fun _ => 100)
        (fun _ => 0) (fun _ => 0) [⟨0, 4⟩, ⟨1, 2⟩] 0).tx_rates =
      ⟨0, 1⟩ :: [(⟨1, 2⟩ : hwsim_tx_rate)].map (fun _ => ⟨-1, 255⟩) :=
  queue_frame_mrr_noack_spec none 9 15 1023 44 34 (fun _ => 100)
    (fun _ => 0) (fun _ => 0) 0 4 [⟨1, 2⟩] 0 (by decide) (by decide)

theorem mrr_attempts_ack_step (slot cw_max ack_time dur_step : Nat)
    (error_prob : ℚ) (u : Nat → ℚ) (k j st cw r : Nat) (choice : ℚ)
    (p : Nat) (he : error_prob < choice) :
    mrr_attempts false false slot cw_max ack_time dur_step error_prob u
      (k + 1) j st cw r choice p =
    ⟨(if 0 < j then st + dur_step + cw * slot / 2 else st + dur_step) +
        ack_time,
      if 0 < j then min (2 * cw + 1) cw_max else cw,
      r + 1, choice, p, true, j⟩ := by
  simp [mrr_attempts, he]

theorem mrr_attempts_fail_step (slot cw_max ack_time dur_step : Nat)
    (error_prob : ℚ) (u : Nat → ℚ) (k j st cw r : Nat) (choice : ℚ)
    (p : Nat) (he : ¬ (error_prob < choice)) :
    mrr_attempts false false slot cw_max ack_time dur_step error_prob u
      (k + 1) j st cw r choice p =
    mrr_attempts false false slot cw_max ack_time dur_step error_prob u
      k (j + 1)
      ((if 0 < j then st + dur_step + cw * slot / 2 else st + dur_step) +
        ack_time)
      (if 0 < j then min (2 * cw + 1) cw_max else cw)
      (r + 1) (u p) (p + 1) := by
  simp [mrr_attempts, he]

/-- Draw accounting for the inner loop when the error-probability matrix
is not configured (fixed = false) on a frame that expects an ACK: the
stream position advances by one for every attempt that failed the choice
test, that is by (new retries - old retries), minus one when the exit was
an ack (the successful attempt does not resample). -/
theorem mrr_attempts_rng_free (slot cw_max ack_time dur_step : Nat)
    (error_prob : ℚ) (u : Nat → ℚ) :
    ∀ (remaining j send_time cw retries : Nat) (choice : ℚ) (p : Nat),
      retries ≤ (mrr_attempts false false slot cw_max ack_time dur_step
        error_prob u remaining j send_time cw retries choice p).retries ∧
      ((mrr_attempts false false slot cw_max ack_time dur_step error_prob
          u remaining j send_time cw retries choice p).is_acked = true →
        retries < (mrr_attempts false false slot cw_max ack_time dur_step
          error_prob u remaining j send_time cw retries choice
          p).retries) ∧
      (mrr_attempts false false slot cw_max ack_time dur_step error_prob
          u remaining j send_time cw retries choice p).rng_pos =
        p + (((mrr_attempts false false slot cw_max ack_time dur_step
            error_prob u remaining j send_time cw retries choice
            p).retries - retries) -
          (if (mrr_attempts false false slot cw_max ack_time dur_step
              error_prob u remaining j send_time cw retries choice
              p).is_acked then 1 else 0)) := by
  intro remaining
  induction remaining with
  | zero =>
    intro j st cw r choice p
    exact ⟨le_rfl, by simp [mrr_attempts], by simp [mrr_attempts]⟩
  | succ k ih =>
    intro j st cw r choice p
    by_cases he : error_prob < choice
    · rw [mrr_attempts_ack_step slot cw_max ack_time dur_step error_prob
        u k j st cw r choice p he]
      exact ⟨Nat.le_succ r, fun _ => Nat.lt_succ_self r, by simp⟩
    · rw [mrr_attempts_fail_step slot cw_max ack_time dur_step error_prob
        u k j st cw r choice p he]
      obtain ⟨h1, h2, h3⟩ := ih (j + 1)
        ((if 0 < j then st + dur_step + cw * slot / 2
          else st + dur_step) + ack_time)
        (if 0 < j then min (2 * cw + 1) cw_max else cw)
        (r + 1) (u p) (p + 1)
      refine ⟨by omega, fun hA => by have := h2 hA; omega, ?_⟩
      rw [h3]
      cases hout : (mrr_attempts false false slot cw_max ack_time dur_step
          error_prob u k (j + 1)
          ((if 0 < j then st + dur_step + cw * slot / 2
            else st + dur_step) + ack_time)
          (if 0 < j then min (2 * cw + 1) cw_max else cw)
          (r + 1) (u p) (p + 1)).is_acked with
      | false =>
        simp only [hout, Bool.false_eq_true, if_false]
        omega
      | true =>
        have hlt := h2 hout
        simp only [hout, if_true]
        omega

/-- Draw accounting for the outer row loop with fixed = false on a frame
that expects an ACK. -/
theorem mrr_rows_rng_free (slot cw_max ack_time difs : Nat)
    (pktdur : Int → Nat) (epf : Int → ℚ) (u : Nat → ℚ) :
    ∀ (rows : List hwsim_tx_rate) (i send_time cw retries : Nat)
      (choice : ℚ) (p : Nat),
      retries ≤ ((mrr_rows false false slot cw_max ack_time difs pktdur
        epf u rows i send_time cw retries choice p).1).retries ∧
      (((mrr_rows false false slot cw_max ack_time difs pktdur epf u rows
          i send_time cw retries choice p).1).is_acked = true →
        retries < ((mrr_rows false false slot cw_max ack_time difs pktdur
          epf u rows i send_time cw retries choice p).1).retries) ∧
      ((mrr_rows false false slot cw_max ack_time difs pktdur epf u rows
          i send_time cw retries choice p).1).rng_pos =
        p + ((((mrr_rows false false slot cw_max ack_time difs pktdur epf
            u rows i send_time cw retries choice p).1).retries -
            retries) -
          (if ((mrr_rows false false slot cw_max ack_time difs pktdur epf
              u rows i send_time cw retries choice p).1).is_acked
            then 1 else 0)) := by
  intro rows
  induction rows with
  | nil =>
    intro i st cw r choice p
    exact ⟨le_rfl, by simp [mrr_rows], by simp [mrr_rows]⟩
  | cons row rest ih =>
    intro i st cw r choice p
    obtain ⟨a1, a2, a3⟩ := mrr_attempts_rng_free slot cw_max ack_time
      (difs + pktdur row.idx) (epf row.idx) u row.count 0 st cw r choice p
    by_cases hidx : row.idx < 0
    · simp only [mrr_rows, hidx, if_pos, if_true]
      exact ⟨le_rfl, by simp, by simp⟩
    · cases hack : (mrr_attempts false false slot cw_max ack_time
          (difs + pktdur row.idx) (epf row.idx) u row.count 0 st cw r
          choice p).is_acked with
      | true =>
        have hred : (mrr_rows false false slot cw_max ack_time difs
            pktdur epf u (row :: rest) i st cw r choice p).1 =
            mrr_attempts false false slot cw_max ack_time
              (difs + pktdur row.idx) (epf row.idx) u row.count 0 st cw r
              choice p := by
          simp [mrr_rows, hidx, hack]
        rw [hred]
        exact ⟨a1, a2, a3⟩
      | false =>
        have hred : (mrr_rows false false slot cw_max ack_time difs
            pktdur epf u (row :: rest) i st cw r choice p).1 =
            (mrr_rows false false slot cw_max ack_time difs pktdur epf u
              rest (i + 1)
              (mrr_attempts false false slot cw_max ack_time
                (difs + pktdur row.idx) (epf row.idx) u row.count 0 st cw
                r choice p).send_time
              (mrr_attempts false false slot cw_max ack_time
                (difs + pktdur row.idx) (epf row.idx) u row.count 0 st cw
                r choice p).cw
              (mrr_attempts false false slot cw_max ack_time
                (difs + pktdur row.idx) (epf row.idx) u row.count 0 st cw
                r choice p).retries
              (mrr_attempts false false slot cw_max ack_time
                (difs + pktdur row.idx) (epf row.idx) u row.count 0 st cw
                r choice p).choice
              (mrr_attempts false false slot cw_max ack_time
                (difs + pktdur row.idx) (epf row.idx) u row.count 0 st cw
                r choice p).rng_pos).1 := by
          simp [mrr_rows, hidx, hack]
        rw [hred]
        obtain ⟨b1, b2, b3⟩ := ih (i + 1)
          (mrr_attempts false false slot cw_max ack_time
            (difs + pktdur row.idx) (epf row.idx) u row.count 0 st cw r
            choice p).send_time
          (mrr_attempts false false slot cw_max ack_time
            (difs + pktdur row.idx) (epf row.idx) u row.count 0 st cw r
            choice p).cw
          (mrr_attempts false false slot cw_max ack_time
            (difs + pktdur row.idx) (epf row.idx) u row.count 0 st cw r
            choice p).retries
          (mrr_attempts false false slot cw_max ack_time
            (difs + pktdur row.idx) (epf row.idx) u row.count 0 st cw r
            choice p).choice
          (mrr_attempts false false slot cw_max ack_time
            (difs + pktdur row.idx) (epf row.idx) u row.count 0 st cw r
            choice p).rng_pos
        rw [hack] at a3
        simp only [Bool.false_eq_true, if_false] at a3
        refine ⟨by omega, fun hA => by have := b2 hA; omega, ?_⟩
        rw [b3]
        cases hout : ((mrr_rows false false slot cw_max ack_time difs
            pktdur epf u rest (i + 1)
            (mrr_attempts false false slot cw_max ack_time
              (difs + pktdur row.idx) (epf row.idx) u row.count 0 st cw r
              choice p).send_time
            (mrr_attempts false false slot cw_max ack_time
              (difs + pktdur row.idx) (epf row.idx) u row.count 0 st cw r
              choice p).cw
            (mrr_attempts false false slot cw_max ack_time
              (difs + pktdur row.idx) (epf row.idx) u row.count 0 st cw r
              choice p).retries
            (mrr_attempts false false slot cw_max ack_time
              (difs + pktdur row.idx) (epf row.idx) u row.count 0 st cw r
              choice p).choice
            (mrr_attempts false false slot cw_max ack_time
              (difs + pktdur row.idx) (epf row.idx) u row.count 0 st cw r
              choice p).rng_pos).1).is_acked with
        | false =>
          simp only [hout, Bool.false_eq_true, if_false]
          omega
        | true =>
          have hlt := b2 hout
          simp only [hout, if_true]
          omega

/-- Draw accounting for the inner loop when the error-probability matrix
is configured (fixed = true): no attempt resamples, so the stream
position and the choice value are unchanged by the whole loop, whatever
noack is. -/
theorem mrr_attempts_rng_fixed (noack : Bool)
    (slot cw_max ack_time dur_step : Nat) (error_prob : ℚ) (u : Nat → ℚ) :
    ∀ (remaining j send_time cw retries : Nat) (choice : ℚ) (p : Nat),
      (mrr_attempts noack true slot cw_max ack_time dur_step error_prob u
        remaining j send_time cw retries choice p).rng_pos = p ∧
      (mrr_attempts noack true slot cw_max ack_time dur_step error_prob u
        remaining j send_time cw retries choice p).choice = choice := by
  intro remaining
  induction remaining with
  | zero =>
    intro j st cw r choice p
    exact ⟨rfl, rfl⟩
  | succ k ih =>
    intro j st cw r choice p
    cases noack with
    | true => exact ⟨rfl, rfl⟩
    | false =>
      by_cases he : error_prob < choice
      · simp [mrr_attempts, he]
      · simp only [mrr_attempts, Bool.false_eq_true, if_false, he,
          if_true]
        exact ih (j + 1) _ _ _ choice p

/-- Draw accounting for the outer row loop with fixed = true. -/
theorem mrr_rows_rng_fixed (noack : Bool)
    (slot cw_max ack_time difs : Nat) (pktdur : Int → Nat)
    (epf : Int → ℚ) (u : Nat → ℚ) :
    ∀ (rows : List hwsim_tx_rate) (i send_time cw retries : Nat)
      (choice : ℚ) (p : Nat),
      ((mrr_rows noack true slot cw_max ack_time difs pktdur epf u rows i
        send_time cw retries choice p).1).rng_pos = p := by
  intro rows
  induction rows with
  | nil =>
    intro i st cw r choice p
    rfl
  | cons row rest ih =>
    intro i st cw r choice p
    obtain ⟨a1, a2⟩ := mrr_attempts_rng_fixed noack slot cw_max ack_time
      (difs + pktdur row.idx) (epf row.idx) u row.count 0 st cw r choice p
    by_cases hidx : row.idx < 0
    · simp [mrr_rows, hidx]
    · cases hack : (mrr_attempts noack true slot cw_max ack_time
          (difs + pktdur row.idx) (epf row.idx) u row.count 0 st cw r
          choice p).is_acked with
      | true =>
        have hred : (mrr_rows noack true slot cw_max ack_time difs pktdur
            epf u (row :: rest) i st cw r choice p).1 =
            mrr_attempts noack true slot cw_max ack_time
              (difs + pktdur row.idx) (epf row.idx) u row.count 0 st cw r
              choice p := by
          simp [mrr_rows, hidx, hack]
        rw [hred]
        exact a1
      | false =>
        have hred : (mrr_rows noack true slot cw_max ack_time difs pktdur
            epf u (row :: rest) i st cw r choice p).1 =
            (mrr_rows noack true slot cw_max ack_time difs pktdur epf u
              rest (i + 1)
              (mrr_attempts noack true slot cw_max ack_time
                (difs + pktdur row.idx) (epf row.idx) u row.count 0 st cw
                r choice p).send_time
              (mrr_attempts noack true slot cw_max ack_time
                (difs + pktdur row.idx) (epf row.idx) u row.count 0 st cw
                r choice p).cw
              (mrr_attempts noack true slot cw_max ack_time
                (difs + pktdur row.idx) (epf row.idx) u row.count 0 st cw
                r choice p).retries
              (mrr_attempts noack true slot cw_max ack_time
                (difs + pktdur row.idx) (epf row.idx) u row.count 0 st cw
                r choice p).choice
              (mrr_attempts noack true slot cw_max ack_time
                (difs + pktdur row.idx) (epf row.idx) u row.count 0 st cw
                r choice p).rng_pos).1 := by
          simp [mrr_rows, hidx, hack]
        rw [hred]
        rw [ih (i + 1) _ _ _ _ _]
        exact a1

/-- C5: when the error-probability matrix is configured
(use_fixed_random_value), the MRR walk of queue_frame consumes exactly
one drand48 draw, the single choice drawn before the walk, and never
resamples across attempts and rows; when the matrix is not configured,
a no-ack-expecting frame resamples once after every unsuccessful attempt,
so the stream advances by 1 (the initial draw) plus the number of failed
attempts (retries, minus one when the walk ended in an ack, since the
successful attempt does not resample). -/
theorem queue_frame_mrr_rng (m : Option (Nat → Nat → ℚ)) (noack : Bool)
    (slot cw_min cw_max ack_time difs : Nat) (pktdur : Int → Nat)
    (epf : Int → ℚ) (u : Nat → ℚ) (tx : List hwsim_tx_rate) (p0 : Nat) :
    (use_fixed_random_value m = true →
      (queue_frame_mrr m noack slot cw_min cw_max ack_time difs pktdur
        epf u tx p0).rng_end = p0 + 1) ∧
    (use_fixed_random_value m = false → noack = false →
      (queue_frame_mrr m noack slot cw_min cw_max ack_time difs pktdur
          epf u tx p0).rng_end =
        p0 + 1 + ((queue_frame_mrr m noack slot cw_min cw_max ack_time
            difs pktdur epf u tx p0).retries -
          (if (queue_frame_mrr m noack slot cw_min cw_max ack_time difs
              pktdur epf u tx p0).acked then 1 else 0))) := by
  constructor
  · intro hfix
    simp only [queue_frame_mrr, hfix]
    exact mrr_rows_rng_fixed noack slot cw_max ack_time difs pktdur epf u
      tx 0 0 cw_min 0 (u p0) (p0 + 1)
  · intro hfix hno
    subst hno
    simp only [queue_frame_mrr, hfix]
    obtain ⟨b1, b2, b3⟩ := mrr_rows_rng_free slot cw_max ack_time difs
      pktdur epf u tx 0 0 cw_min 0 (u p0) (p0 + 1)
    rw [b3]
    omega

/-- Witness for queue_frame_mrr_rng: the matrix-configured branch at a
concrete frame (one draw consumed) and the matrix-free branch at a
concrete frame. -/
theorem queue_frame_mrr_rng_witness :
    (queue_frame_mrr (some fun _ _ => 0) false 9 15 1023 44 34
        (fun _ => 100) (fun _ => (1 : ℚ) / 2) (fun _ => (1 : ℚ) / 4)
        [⟨0, 2⟩] 0).rng_end = 0 + 1 ∧
    (queue_frame_mrr none false 9 15 1023 44 34 (fun _ => 100)
        (fun _ => (1 : ℚ) / 2) (fun _ => (1 : ℚ) / 4) [⟨0, 2⟩] 5).rng_end =
      5 + 1 + ((queue_frame_mrr none false 9 15 1023 44 34 (fun _ => 100)
          (fun _ => (1 : ℚ) / 2) (fun _ => (1 : ℚ) / 4) [⟨0, 2⟩]
          5).retries -
        (if (queue_frame_mrr none false 9 15 1023 44 34 (fun _ => 100)
            (fun _ => (1 : ℚ) / 2) (fun _ => (1 : ℚ) / 4) [⟨0, 2⟩]
            5).acked then 1 else 0)) :=
  ⟨(queue_frame_mrr_rng (some fun _ _ => 0) false 9 15 1023 44 34
      (fun _ => 100) (fun _ => (1 : ℚ) / 2) (fun _ => (1 : ℚ) / 4)
      [⟨0, 2⟩] 0).1 rfl,
   (queue_frame_mrr_rng none false 9 15 1023 44 34 (fun _ => 100)
      (fun _ => (1 : ℚ) / 2) (fun _ => (1 : ℚ) / 4) [⟨0, 2⟩] 5).2 rfl
      rfl⟩

end Wmediumd
